import Mathlib

/-!
Verification of the parameter normalizer and result translator of
addon-test-support/audit.ts (ember-a11y-testing).

The TypeScript module is shallowly embedded: JavaScript runtime values are
modelled by the inductive type JSVal (covering every shape the functions
inspect: strings, arrays, DOM Node / NodeList instances, plain objects,
functions, numbers, booleans, null and undefined), property access that can
throw is modelled with Except, and the side-effecting entry point a11yAudit
is modelled as a function producing the list of its observable effects (an
event trace) together with the settlement of the returned promise.

External collaborators that are part of this repository but whose sources
are not available here (the violation formatter, the performance-mark
helpers and the run-options registry) are modelled from the spec as
explicit parameters, as noted on each definition.
-/

set_option autoImplicit false

/-- A JavaScript runtime value, at the granularity the audited module
inspects values: the "typeof" tag, array-ness, Node / NodeList instance
checks, and own properties of plain objects. A browser environment is
assumed, so self.Node and self.NodeList are defined (truthy). -/
inductive JSVal : Type where
  | undef : JSVal
  | null : JSVal
  | bool (b : Bool) : JSVal
  | num (n : Int) : JSVal
  | str (s : String) : JSVal
  | func : JSVal
  | node : JSVal
  | nodeList : JSVal
  | arr (elems : List JSVal) : JSVal
  | obj (fields : List (String × JSVal)) : JSVal

/-- A thrown JavaScript TypeError, recording the property whose access on
null raised it. -/
inductive JSErr : Type where
  | typeError (prop : String) : JSErr

/-- The JavaScript "typeof" operator on the modelled values. Note that
"typeof null" is the string "object". -/
def typeofJS : JSVal → String
  | JSVal.undef => "undefined"
  | JSVal.null => "object"
  | JSVal.bool _ => "boolean"
  | JSVal.num _ => "number"
  | JSVal.str _ => "string"
  | JSVal.func => "function"
  | JSVal.node => "object"
  | JSVal.nodeList => "object"
  | JSVal.arr _ => "object"
  | JSVal.obj _ => "object"

/-- Is this value the JavaScript value undefined? -/
def isUndef : JSVal → Bool
  | JSVal.undef => true
  | _ => false

/-- Array.isArray. -/
def isArrayJS : JSVal → Bool
  | JSVal.arr _ => true
  | _ => false

/-- "potential instanceof self.Node" (browser environment: Node exists). -/
def isNodeInst : JSVal → Bool
  | JSVal.node => true
  | _ => false

/-- "potential instanceof self.NodeList". -/
def isNodeListInst : JSVal → Bool
  | JSVal.nodeList => true
  | _ => false

/-- JavaScript truthiness of the modelled values. -/
def jsTruthy : JSVal → Bool
  | JSVal.undef => false
  | JSVal.null => false
  | JSVal.bool b => b
  | JSVal.num n => n != 0
  | JSVal.str s => s != ""
  | _ => true

/-- Own-property lookup on a plain object's field list; an absent key reads
as undefined, as in JavaScript. -/
def lookupField : List (String × JSVal) → String → JSVal
  | [], _ => JSVal.undef
  | (k, v) :: rest, key => if k = key then v else lookupField rest key

/-- Property access "v.key". On null and undefined it throws a TypeError;
on a plain object it reads the field (undefined when absent); on the other
values the properties the module reads are absent, so it yields undefined. -/
def getProp : JSVal → String → Except JSErr JSVal
  | JSVal.undef, key => Except.error (JSErr.typeError key)
  | JSVal.null, key => Except.error (JSErr.typeError key)
  | JSVal.obj fields, key => Except.ok (lookupField fields key)
  | _, _ => Except.ok JSVal.undef

/-- The JavaScript short-circuiting "a || b". -/
def jsOr (a b : JSVal) : JSVal :=
  if jsTruthy a then a else b

/-- Embeds _isContext of audit.ts (the "switch (true)" cascade): a string,
an array, a Node, or a NodeList is a context; any non-"object" typeof tag is
not; otherwise the include and then the exclude property are compared with
undefined. Property access on null (whose typeof tag is "object") throws,
exactly as in JavaScript. -/
def _isContext (potential : JSVal) : Except JSErr Bool :=
  if typeofJS potential = "string" then Except.ok true
  else if isArrayJS potential then Except.ok true
  else if isNodeInst potential then Except.ok true
  else if isNodeListInst potential then Except.ok true
  else if typeofJS potential ≠ "object" then Except.ok false
  else
    match getProp potential "include" with
    | Except.error e => Except.error e
    | Except.ok inc =>
      if isUndef inc = false then Except.ok true
      else
        match getProp potential "exclude" with
        | Except.error e => Except.error e
        | Except.ok exc =>
          if isUndef exc = false then Except.ok true else Except.ok false

/-- Modelled from the spec: the run-options registry collaborator
(getRunOptions in addon-test-support/run-options, not available under
src/) performs "a process-wide read of previously configured defaults",
returning RunOptions or undefined. It is modelled as reading an explicit
registry value threaded through the embedding. -/
def getRunOptions (registry : JSVal) : JSVal :=
  registry

/-- Embeds lines 92 to 96 of audit.ts: when the resolved options value does
not have typeof tag "object" it is replaced by "getRunOptions() || \x7b\x7d". -/
def normalizeOptions (registry options : JSVal) : JSVal :=
  if typeofJS options ≠ "object" then jsOr (getRunOptions registry) (JSVal.obj [])
  else options

/-- Embeds _normalizeRunParams of audit.ts: classify the first argument
with _isContext (propagating a thrown TypeError), pick the
(context, options) pair accordingly (default context selector
"#ember-testing-container" when the first argument is options), then apply
the default-options substitution to the options slot. -/
def _normalizeRunParams (registry elementContext runOptions : JSVal) :
    Except JSErr (JSVal × JSVal) :=
  match _isContext elementContext with
  | Except.error e => Except.error e
  | Except.ok isCtx =>
    let co :=
      if !isCtx then (JSVal.str "#ember-testing-container", elementContext)
      else (elementContext, runOptions)
    Except.ok (co.1, normalizeOptions registry co.2)

/-- One affected DOM node descriptor inside a violation, carrying its
serialized markup (the html field read by processAxeResults). -/
structure NodeResult where
  html : String

/-- One accessibility violation reported by the engine: an identifier and
the affected nodes. Further metadata is consumed only by the opaque
violation formatter and so is not modelled. -/
structure Violation where
  id : String
  nodes : List NodeResult

/-- The engine's result object, as far as the translator reads it: the
violations sequence. -/
structure AxeResults where
  violations : List Violation

/-- A thrown JavaScript Error object, as far as the claims inspect it: its
message string. -/
structure ErrorObj where
  message : String

/-- Embeds processAxeResults of audit.ts. The violation formatter
(formatViolation in addon-test-support/format-violation) and the current
QUnit test identifier (QUnit.config.current.testId) are external inputs,
so they are passed as parameters; the formatter is modelled from the spec
as an opaque "format(violation, nodeHtmlList) -> string" collaborator.
When the violations list is non-empty (JavaScript: "if (violations.length)")
an Error is thrown whose message is built exactly as the template literal
in the source builds it. -/
def processAxeResults (formatViolation : Violation → List String → String)
    (testId : String) (results : AxeResults) : Except ErrorObj Unit :=
  let violations := results.violations
  if violations.length ≠ 0 then
    let allViolations := violations.map (fun violation =>
      formatViolation violation (violation.nodes.map (fun n => n.html)))
    let allViolationMessages := String.intercalate "\n" allViolations
    Except.error
      ⟨"The page should have no accessibility violations. Violations:\n" ++
        allViolationMessages ++
        "\nTo rerun this specific failure, use the following query params: &" ++
        testId ++ "&enableA11yAudit=true"⟩
  else Except.ok ()

/-- One observable side effect of a11yAudit, in the order it is performed:
a performance mark (modelled from the spec: the performance helpers mark
and markEndAndMeasure are best-effort recording collaborators), a class
added to document.body, the invocation of the external engine run with the
normalized pair, a class removed from document.body, and the end-mark plus
elapsed-duration measurement. -/
inductive AuditEvent : Type where
  | mark (name : String) : AuditEvent
  | addClass (name : String) : AuditEvent
  | engineRun (context options : JSVal) : AuditEvent
  | removeClass (name : String) : AuditEvent
  | measure (name startMark endMark : String) : AuditEvent

/-- How one invocation of a11yAudit ends: a synchronous throw before the
promise is created (a TypeError escaping _normalizeRunParams), a rejection
with the engine's own error, a rejection with the translator's Error, or a
resolution with no value. -/
inductive AuditOutcome : Type where
  | syncThrow (e : JSErr) : AuditOutcome
  | rejectedEngine (e : JSVal) : AuditOutcome
  | rejectedViolations (e : ErrorObj) : AuditOutcome
  | resolved : AuditOutcome

/-- Embeds a11yAudit of audit.ts as a trace semantics. The engine is the
external collaborator "run(context, options, callback)" whose single
callback carries (engineError, engineResult); both are parameters. The
source performs, in order: mark the start, apply the default parameter and
normalize (a TypeError thrown here escapes synchronously, before any class
is added), add the axe-running class, invoke the engine, and then - via
"then(processAxeResults)" and a "finally" handler - settle the promise
while unconditionally removing the class and recording the end mark and
measurement. The callback resolves when the error is falsy and rejects
with the error unchanged otherwise; the then-handler applies the
translator only on the resolution path. -/
def a11yAudit (formatViolation : Violation → List String → String)
    (testId : String) (registry : JSVal) (contextSelector axeOptions : JSVal)
    (engineError : JSVal) (engineResult : AxeResults) :
    List AuditEvent × AuditOutcome :=
  let cs :=
    if isUndef contextSelector then JSVal.str "#ember-testing-container"
    else contextSelector
  match _normalizeRunParams registry cs axeOptions with
  | Except.error e => ([AuditEvent.mark "a11y_audit_start"], AuditOutcome.syncThrow e)
  | Except.ok (context, options) =>
    let settled :=
      if jsTruthy engineError then AuditOutcome.rejectedEngine engineError
      else
        match processAxeResults formatViolation testId engineResult with
        | Except.ok _ => AuditOutcome.resolved
        | Except.error e => AuditOutcome.rejectedViolations e
    ([AuditEvent.mark "a11y_audit_start", AuditEvent.addClass "axe-running",
      AuditEvent.engineRun context options, AuditEvent.removeClass "axe-running",
      AuditEvent.measure "a11y_audit" "a11y_audit_start" "a11y_audit_end"],
      settled)

/-- Spec-side definition, written from the spec's words for the refinement
claim about _isContext: a value is context-shaped when it is a string, an
array, a DOM node, a DOM node-list, or an object whose include or exclude
key is defined. -/
def contextShaped : JSVal → Bool
  | JSVal.str _ => true
  | JSVal.arr _ => true
  | JSVal.node => true
  | JSVal.nodeList => true
  | JSVal.obj fields =>
    !(isUndef (lookupField fields "include")) ||
      !(isUndef (lookupField fields "exclude"))
  | _ => false

/-- Spec-side definition: the spec's notion of a plain options mapping. -/
def specPlainMapping : JSVal → Bool
  | JSVal.obj _ => true
  | _ => false

/-- Does a run of the normalizer return a pair (rather than throw)? -/
def isOkRun (r : Except JSErr (JSVal × JSVal)) : Bool :=
  match r with
  | Except.ok _ => true
  | Except.error _ => false

example : _isContext (JSVal.str "#foo") = Except.ok true := rfl
example : _isContext (JSVal.obj [("include", JSVal.arr [JSVal.str ".foo"])]) = Except.ok true := rfl
example : _isContext (JSVal.obj [("rules", JSVal.obj [])]) = Except.ok false := rfl
example : _isContext JSVal.undef = Except.ok false := rfl
example : _isContext JSVal.null = Except.error (JSErr.typeError "include") := rfl
example : _normalizeRunParams JSVal.undef JSVal.undef JSVal.undef =
    Except.ok (JSVal.str "#ember-testing-container", JSVal.obj []) := rfl
example : _normalizeRunParams JSVal.undef (JSVal.str "#x") JSVal.null =
    Except.ok (JSVal.str "#x", JSVal.null) := rfl

/-- Characterization of _isContext by the shape of its argument: strings,
arrays, nodes and node-lists classify as context; a plain object classifies
by whether its include or exclude field is defined; null makes the include
property access throw; every other value classifies as options. -/
theorem isContext_char (v : JSVal) :
    _isContext v =
      (match v with
       | JSVal.null => Except.error (JSErr.typeError "include")
       | JSVal.str _ => Except.ok true
       | JSVal.arr _ => Except.ok true
       | JSVal.node => Except.ok true
       | JSVal.nodeList => Except.ok true
       | JSVal.obj fields =>
         Except.ok (!(isUndef (lookupField fields "include")) ||
           !(isUndef (lookupField fields "exclude")))
       | _ => Except.ok false) := by
  cases v with
  | obj fields =>
    simp only [_isContext, typeofJS, isArrayJS, isNodeInst, isNodeListInst, getProp]
    cases h1 : isUndef (lookupField fields "include") <;>
      cases h2 : isUndef (lookupField fields "exclude") <;> simp [h1, h2]
  | _ => rfl

/-- On every non-null value the classifier returns a boolean. -/
theorem isContext_total (v : JSVal) (h : v ≠ JSVal.null) :
    ∃ b, _isContext v = Except.ok b := by
  rw [isContext_char]
  cases v <;> simp_all

/-- Unfolding of _normalizeRunParams when the first argument classifies as
context. -/
theorem normalizeRunParams_ctx {registry a b : JSVal}
    (h : _isContext a = Except.ok true) :
    _normalizeRunParams registry a b =
      Except.ok (a, normalizeOptions registry b) := by
  simp [_normalizeRunParams, h]

/-- Unfolding of _normalizeRunParams when the first argument classifies as
options. -/
theorem normalizeRunParams_opts {registry a b : JSVal}
    (h : _isContext a = Except.ok false) :
    _normalizeRunParams registry a b =
      Except.ok (JSVal.str "#ember-testing-container",
        normalizeOptions registry a) := by
  simp [_normalizeRunParams, h]

/-- On every non-null first argument the normalizer returns a pair. -/
theorem normalizeRunParams_total (registry a b : JSVal) (h : a ≠ JSVal.null) :
    ∃ p, _normalizeRunParams registry a b = Except.ok p := by
  obtain ⟨bl, hbl⟩ := isContext_total a h
  cases bl
  · exact ⟨_, normalizeRunParams_opts hbl⟩
  · exact ⟨_, normalizeRunParams_ctx hbl⟩

/-- The default-options substitution leaves "object"-typed values alone. -/
theorem normalizeOptions_object {registry options : JSVal}
    (h : typeofJS options = "object") :
    normalizeOptions registry options = options := by
  simp [normalizeOptions, h]

/-- The default-options substitution replaces every non-"object" value with
the registered defaults, or the empty object when those are falsy. -/
theorem normalizeOptions_nonobject {registry options : JSVal}
    (h : typeofJS options ≠ "object") :
    normalizeOptions registry options =
      jsOr (getRunOptions registry) (JSVal.obj []) := by
  simp [normalizeOptions, h]

/-- The default-options substitution is idempotent for a fixed registry. -/
theorem normalizeOptions_idem (registry options : JSVal) :
    normalizeOptions registry (normalizeOptions registry options) =
      normalizeOptions registry options := by
  by_cases h : typeofJS options = "object"
  · rw [normalizeOptions_object h, normalizeOptions_object h]
  · rw [normalizeOptions_nonobject h]
    by_cases h2 : typeofJS (jsOr (getRunOptions registry) (JSVal.obj [])) = "object"
    · exact normalizeOptions_object h2
    · rw [normalizeOptions_nonobject h2]

/-- The default-options substitution never yields undefined: an
"object"-typed value is kept (and undefined is not "object"-typed), and the
replacement is either a truthy registry value or the empty object. -/
theorem normalizeOptions_ne_undef (registry options : JSVal) :
    normalizeOptions registry options ≠ JSVal.undef := by
  by_cases h : typeofJS options = "object"
  · rw [normalizeOptions_object h]
    intro he
    rw [he] at h
    exact absurd h (by simp [typeofJS])
  · rw [normalizeOptions_nonobject h]
    unfold jsOr
    by_cases ht : jsTruthy (getRunOptions registry) = true
    · simp only [ht, if_pos]
      intro he
      rw [he] at ht
      exact absurd ht (by simp [jsTruthy])
    · simp only [ht, if_neg]
      intro he
      exact JSVal.noConfusion he

/-- The options component of every successful normalization is not
undefined. -/
theorem normalized_options_ne_undef (registry a b c o : JSVal)
    (h : _normalizeRunParams registry a b = Except.ok (c, o)) :
    o ≠ JSVal.undef := by
  cases hic : _isContext a with
  | error e =>
    rw [_normalizeRunParams, hic] at h
    exact absurd h (by intro hh; exact Except.noConfusion hh)
  | ok bl =>
    cases bl
    · rw [normalizeRunParams_opts hic] at h
      simp only [Except.ok.injEq, Prod.mk.injEq] at h
      rw [← h.2]
      exact normalizeOptions_ne_undef registry a
    · rw [normalizeRunParams_ctx hic] at h
      simp only [Except.ok.injEq, Prod.mk.injEq] at h
      rw [← h.2]
      exact normalizeOptions_ne_undef registry b

/-- C1 counterexample: the claim classifies every non-context-shaped first
argument - including null - as an options mapping, but _isContext null
throws a TypeError (typeof null is "object", so the cascade reaches the
include property access), so null is classified as neither. -/
theorem isContext_null_throws :
    _isContext JSVal.null = Except.error (JSErr.typeError "include") ∧
    _isContext JSVal.null ≠ Except.ok false ∧
    _isContext JSVal.null ≠ Except.ok true :=
  ⟨rfl, by simp [isContext_char], by simp [isContext_char]⟩

/-- C1 (amended): for every first argument other than null, _isContext
classifies it as a context descriptor if and only if it is a string, an
array, a DOM node, a DOM node-list, or an object whose include or exclude
key is defined, and classifies every other such value (including undefined
and plain objects lacking those keys) as an options mapping; on null the
classification throws a TypeError instead of classifying. -/
theorem isContext_matches_shape (v : JSVal) (h : v ≠ JSVal.null) :
    _isContext v = Except.ok (contextShaped v) := by
  rw [isContext_char]
  cases v <;> simp_all [contextShaped]

/-- Witness for the C1 theorem at an object exposing an include key. -/
theorem isContext_matches_shape_witness :
    (JSVal.obj [("include", JSVal.arr [JSVal.str ".foo"])] ≠ JSVal.null) ∧
    _isContext (JSVal.obj [("include", JSVal.arr [JSVal.str ".foo"])]) =
      Except.ok (contextShaped (JSVal.obj [("include", JSVal.arr [JSVal.str ".foo"])])) :=
  ⟨by simp, isContext_matches_shape _ (by simp)⟩

/-- C2: when the first argument classifies as a context, _normalizeRunParams
returns it as the context with the second argument feeding the options slot
(returned verbatim whenever it is "object"-typed, and otherwise subject to
the default-options substitution stated by C3); when it classifies as an
options mapping, the fixed selector "#ember-testing-container" is the
context and the first argument feeds the options slot the same way. -/
theorem normalize_branch_selection (registry a b : JSVal) :
    (_isContext a = Except.ok true →
      _normalizeRunParams registry a b =
        Except.ok (a, normalizeOptions registry b) ∧
      (typeofJS b = "object" →
        _normalizeRunParams registry a b = Except.ok (a, b))) ∧
    (_isContext a = Except.ok false →
      _normalizeRunParams registry a b =
        Except.ok (JSVal.str "#ember-testing-container",
          normalizeOptions registry a) ∧
      (typeofJS a = "object" →
        _normalizeRunParams registry a b =
          Except.ok (JSVal.str "#ember-testing-container", a))) := by
  constructor
  · intro h
    refine ⟨normalizeRunParams_ctx h, fun hb => ?_⟩
    rw [normalizeRunParams_ctx h, normalizeOptions_object hb]
  · intro h
    refine ⟨normalizeRunParams_opts h, fun ha => ?_⟩
    rw [normalizeRunParams_opts h, normalizeOptions_object ha]

/-- Witness for the C2 theorem: a string context with object options is
passed through unchanged. -/
theorem normalize_branch_selection_witness :
    _isContext (JSVal.str "#sel") = Except.ok true ∧
    _normalizeRunParams JSVal.undef (JSVal.str "#sel") (JSVal.obj []) =
      Except.ok (JSVal.str "#sel", JSVal.obj []) :=
  ⟨rfl,
    ((normalize_branch_selection JSVal.undef (JSVal.str "#sel") (JSVal.obj [])).1
      rfl).2 rfl⟩

/-- C3: on every successful run of _normalizeRunParams, the options value
resolved by the branch (the second argument when the first classifies as
context, the first argument otherwise) is returned unchanged when its
typeof tag is "object", and otherwise is replaced by the registered
process-wide default options when such are registered (truthy), or by the
empty mapping when none are registered. -/
theorem options_defaulting (registry a b c o : JSVal)
    (h : _normalizeRunParams registry a b = Except.ok (c, o)) :
    ∃ resolved : JSVal,
      ((_isContext a = Except.ok true ∧ resolved = b) ∨
        (_isContext a = Except.ok false ∧ resolved = a)) ∧
      (typeofJS resolved = "object" → o = resolved) ∧
      (typeofJS resolved ≠ "object" →
        (getRunOptions registry = JSVal.undef → o = JSVal.obj []) ∧
        (jsTruthy (getRunOptions registry) = true →
          o = getRunOptions registry)) := by
  cases hic : _isContext a with
  | error e =>
    rw [_normalizeRunParams, hic] at h
    exact absurd h (fun hh => nomatch hh)
  | ok bl =>
    cases bl
    · rw [normalizeRunParams_opts hic] at h
      simp only [Except.ok.injEq, Prod.mk.injEq] at h
      refine ⟨a, Or.inr ⟨rfl, rfl⟩, fun hobj => ?_, fun hnot => ?_⟩
      · rw [← h.2, normalizeOptions_object hobj]
      · refine ⟨fun hreg => ?_, fun htr => ?_⟩
        · simp only [getRunOptions] at hreg
          rw [← h.2, normalizeOptions_nonobject hnot, hreg]
          rfl
        · rw [← h.2, normalizeOptions_nonobject hnot]
          simp [jsOr, htr]
    · rw [normalizeRunParams_ctx hic] at h
      simp only [Except.ok.injEq, Prod.mk.injEq] at h
      refine ⟨b, Or.inl ⟨rfl, rfl⟩, fun hobj => ?_, fun hnot => ?_⟩
      · rw [← h.2, normalizeOptions_object hobj]
      · refine ⟨fun hreg => ?_, fun htr => ?_⟩
        · simp only [getRunOptions] at hreg
          rw [← h.2, normalizeOptions_nonobject hnot, hreg]
          rfl
        · rw [← h.2, normalizeOptions_nonobject hnot]
          simp [jsOr, htr]

/-- Witness for the C3 theorem: invoking with an options-shaped object and
no second argument returns that object unchanged. -/
theorem options_defaulting_witness :
    _normalizeRunParams JSVal.undef (JSVal.obj []) JSVal.undef =
      Except.ok (JSVal.str "#ember-testing-container", JSVal.obj []) ∧
    ∃ resolved : JSVal,
      ((_isContext (JSVal.obj []) = Except.ok true ∧ resolved = JSVal.undef) ∨
        (_isContext (JSVal.obj []) = Except.ok false ∧
          resolved = JSVal.obj [])) ∧
      (typeofJS resolved = "object" → JSVal.obj [] = resolved) ∧
      (typeofJS resolved ≠ "object" →
        (getRunOptions JSVal.undef = JSVal.undef → JSVal.obj [] = JSVal.obj []) ∧
        (jsTruthy (getRunOptions JSVal.undef) = true →
          JSVal.obj [] = getRunOptions JSVal.undef)) :=
  ⟨rfl, options_defaulting JSVal.undef (JSVal.obj []) JSVal.undef
    (JSVal.str "#ember-testing-container") (JSVal.obj []) rfl⟩

/-- C4: the result translator succeeds with no output value exactly when
the violations sequence is empty, and (being an Except-valued pure
function) fails otherwise, with no effect beyond constructing the error. -/
theorem processAxeResults_ok_iff
    (formatViolation : Violation → List String → String)
    (testId : String) (results : AxeResults) :
    processAxeResults formatViolation testId results = Except.ok () ↔
      results.violations = [] := by
  cases hv : results.violations with
  | nil => simp [processAxeResults, hv]
  | cons v rest => simp [processAxeResults, hv]

/-- C5: on every result with at least one violation, the thrown error's
message is exactly the fixed header sentence, the per-violation strings
(each the formatter applied to the violation and its nodes' html markup)
joined by newlines, and the fixed footer naming the current test
identifier and the literal substring enableA11yAudit=true. -/
theorem violations_error_message
    (formatViolation : Violation → List String → String)
    (testId : String) (results : AxeResults) (h : results.violations ≠ []) :
    processAxeResults formatViolation testId results =
      Except.error
        ⟨"The page should have no accessibility violations. Violations:\n" ++
          String.intercalate "\n" (results.violations.map (fun violation =>
            formatViolation violation
              (violation.nodes.map (fun n => n.html)))) ++
          "\nTo rerun this specific failure, use the following query params: &" ++
          testId ++ "&enableA11yAudit=true"⟩ := by
  have hlen : results.violations.length ≠ 0 :=
    fun h0 => h (List.length_eq_zero.mp h0)
  simp [processAxeResults, hlen]

/-- Witness for the C5 theorem: one violation with two affected nodes
produces one formatted entry listing both nodes' markup. -/
theorem violations_error_message_witness :
    (AxeResults.mk [⟨"image-alt", [⟨"<img src=foo>"⟩, ⟨"<img src=bar>"⟩]⟩]).violations ≠ [] ∧
    processAxeResults
      (fun violation htmls => violation.id ++ ": " ++ String.intercalate ", " htmls)
      "abc123"
      (AxeResults.mk [⟨"image-alt", [⟨"<img src=foo>"⟩, ⟨"<img src=bar>"⟩]⟩]) =
      Except.error
        ⟨"The page should have no accessibility violations. Violations:\nimage-alt: <img src=foo>, <img src=bar>\nTo rerun this specific failure, use the following query params: &abc123&enableA11yAudit=true"⟩ :=
  ⟨by simp, violations_error_message _ _ _ (by simp)⟩

/-- C8 counterexample: the normalizer is not total over all input shapes -
on a null first argument the include property access inside _isContext
throws a TypeError, so no (context, options) pair is returned. -/
theorem normalize_null_throws :
    isOkRun (_normalizeRunParams JSVal.undef JSVal.null JSVal.undef) = false ∧
    _normalizeRunParams JSVal.undef JSVal.null JSVal.undef =
      Except.error (JSErr.typeError "include") :=
  ⟨rfl, rfl⟩

/-- C8 (amended): the parameter normalizer is deterministic (it is a pure
function of its arguments and the registry, performing no I/O) and total
over all input shapes except a null first argument: for every non-null
first argument (including undefined and non-object primitives) and every
second argument it returns a (context, options) pair without failing; on a
null first argument it throws the classifier's TypeError. -/
theorem normalize_total_nonnull (registry a b : JSVal) (h : a ≠ JSVal.null) :
    isOkRun (_normalizeRunParams registry a b) = true := by
  obtain ⟨p, hp⟩ := normalizeRunParams_total registry a b h
  rw [hp]
  rfl

/-- Witness for the C8 theorem at a non-object primitive first argument. -/
theorem normalize_total_nonnull_witness :
    (JSVal.num 3 ≠ JSVal.null) ∧
    isOkRun (_normalizeRunParams JSVal.undef (JSVal.num 3) JSVal.undef) = true :=
  ⟨by simp, normalize_total_nonnull JSVal.undef (JSVal.num 3) JSVal.undef (by simp)⟩

/-- C10: normalization is idempotent - whenever _normalizeRunParams
returns a (context, options) pair, running it again on that pair with the
same registry returns the very same pair. -/
theorem normalize_idempotent (registry a b c o : JSVal)
    (h : _normalizeRunParams registry a b = Except.ok (c, o)) :
    _normalizeRunParams registry c o = Except.ok (c, o) := by
  cases hic : _isContext a with
  | error e =>
    rw [_normalizeRunParams, hic] at h
    exact absurd h (by intro hh; exact Except.noConfusion hh)
  | ok bl =>
    cases bl
    · rw [normalizeRunParams_opts hic] at h
      simp only [Except.ok.injEq, Prod.mk.injEq] at h
      have hctx : _isContext c = Except.ok true := by
        rw [← h.1]; rfl
      rw [normalizeRunParams_ctx hctx, ← h.2, normalizeOptions_idem]
    · rw [normalizeRunParams_ctx hic] at h
      simp only [Except.ok.injEq, Prod.mk.injEq] at h
      have hctx : _isContext c = Except.ok true := by
        rw [← h.1]; exact hic
      rw [normalizeRunParams_ctx hctx, ← h.2, normalizeOptions_idem]

/-- Witness for the C10 theorem: a second run on the pair produced for a
string context and absent options returns the same pair. -/
theorem normalize_idempotent_witness :
    _normalizeRunParams JSVal.undef (JSVal.str "#sel2") JSVal.undef =
      Except.ok (JSVal.str "#sel2", JSVal.obj []) ∧
    _normalizeRunParams JSVal.undef (JSVal.str "#sel2") (JSVal.obj []) =
      Except.ok (JSVal.str "#sel2", JSVal.obj []) :=
  ⟨rfl, normalize_idempotent JSVal.undef (JSVal.str "#sel2") JSVal.undef
    (JSVal.str "#sel2") (JSVal.obj []) rfl⟩

/-- C6: whenever the engine's callback reports an error (a truthy error
value, which is what the callback's "if (!error)" test treats as an
error), the promise returned by a11yAudit rejects with exactly that error
value, unmodified; the conclusion holds for every formatter, test
identifier and engine result, so the translator plays no part on this
path. -/
theorem engine_error_propagates
    (formatViolation : Violation → List String → String) (testId : String)
    (registry contextSelector axeOptions engineError : JSVal)
    (engineResult : AxeResults)
    (herr : jsTruthy engineError = true) (hcs : contextSelector ≠ JSVal.null) :
    (a11yAudit formatViolation testId registry contextSelector axeOptions
        engineError engineResult).2 =
      AuditOutcome.rejectedEngine engineError := by
  have hcs2 : (if isUndef contextSelector then JSVal.str "#ember-testing-container"
      else contextSelector) ≠ JSVal.null := by
    cases hu : isUndef contextSelector with
    | true => simp
    | false => simpa using hcs
  obtain ⟨p, hp⟩ := normalizeRunParams_total registry _ axeOptions hcs2
  obtain ⟨context, options⟩ := p
  simp [a11yAudit, hp, herr]

/-- Witness for the C6 theorem: a truthy engine error string is rejected
unchanged. -/
theorem engine_error_propagates_witness :
    jsTruthy (JSVal.str "engine boom") = true ∧
    (JSVal.undef ≠ JSVal.null) ∧
    (a11yAudit (fun _ _ => "") "tid" JSVal.undef JSVal.undef JSVal.undef
        (JSVal.str "engine boom") (AxeResults.mk [])).2 =
      AuditOutcome.rejectedEngine (JSVal.str "engine boom") :=
  ⟨rfl, by simp, engine_error_propagates _ _ _ _ _ _ _ rfl (by simp)⟩

/-- C7: on every invocation whose normalization succeeds (so a promise is
returned at all), the event trace is exactly: start mark, axe-running
class added to the body, engine invocation, axe-running class removed,
end-mark-and-measure - for every engine outcome and translator outcome, so
the class is present during the engine call and the cleanup plus timing
measurement happen after the promise settles on the success path and on
every failure path. -/
theorem audit_cleanup_trace
    (formatViolation : Violation → List String → String) (testId : String)
    (registry contextSelector axeOptions engineError : JSVal)
    (engineResult : AxeResults) (hcs : contextSelector ≠ JSVal.null) :
    ∃ context options,
      (a11yAudit formatViolation testId registry contextSelector axeOptions
          engineError engineResult).1 =
        [AuditEvent.mark "a11y_audit_start", AuditEvent.addClass "axe-running",
         AuditEvent.engineRun context options,
         AuditEvent.removeClass "axe-running",
         AuditEvent.measure "a11y_audit" "a11y_audit_start" "a11y_audit_end"] := by
  have hcs2 : (if isUndef contextSelector then JSVal.str "#ember-testing-container"
      else contextSelector) ≠ JSVal.null := by
    cases hu : isUndef contextSelector with
    | true => simp
    | false => simpa using hcs
  obtain ⟨p, hp⟩ := normalizeRunParams_total registry _ axeOptions hcs2
  obtain ⟨context, options⟩ := p
  exact ⟨context, options, by simp [a11yAudit, hp]⟩

/-- Witness for the C7 theorem on a no-argument invocation whose engine
reports no violations. -/
theorem audit_cleanup_trace_witness :
    (JSVal.undef ≠ JSVal.null) ∧
    ∃ context options,
      (a11yAudit (fun _ _ => "") "tid2" JSVal.undef JSVal.undef JSVal.undef
          JSVal.undef (AxeResults.mk [])).1 =
        [AuditEvent.mark "a11y_audit_start", AuditEvent.addClass "axe-running",
         AuditEvent.engineRun context options,
         AuditEvent.removeClass "axe-running",
         AuditEvent.measure "a11y_audit" "a11y_audit_start" "a11y_audit_end"] :=
  ⟨by simp, audit_cleanup_trace _ _ _ _ _ _ _ (by simp)⟩

/-- C9 counterexample: passing null as the explicit options argument
reaches the engine unchanged - typeof null is "object", so the
default-options substitution keeps it - and null is not a plain mapping,
refuting the claim that the options at the point of engine invocation are
never a non-mapping value such as null. -/
theorem null_options_reach_engine :
    (a11yAudit (fun _ _ => "") "tid3" JSVal.undef (JSVal.str "#sel") JSVal.null
        JSVal.undef (AxeResults.mk [])).1 =
      [AuditEvent.mark "a11y_audit_start", AuditEvent.addClass "axe-running",
       AuditEvent.engineRun (JSVal.str "#sel") JSVal.null,
       AuditEvent.removeClass "axe-running",
       AuditEvent.measure "a11y_audit" "a11y_audit_start" "a11y_audit_end"] ∧
    specPlainMapping JSVal.null = false ∧
    JSVal.null ≠ JSVal.undef :=
  ⟨rfl, rfl, by simp⟩

/-- C9 (amended): at the point the external engine is invoked the
normalized pair is well-formed and the options value is never undefined;
it need not be a plain mapping, since an explicitly passed null (whose
typeof tag is "object") flows through the substitution unchanged. -/
theorem engine_options_defined
    (formatViolation : Violation → List String → String) (testId : String)
    (registry contextSelector axeOptions engineError : JSVal)
    (engineResult : AxeResults) (context options : JSVal)
    (h : AuditEvent.engineRun context options ∈
      (a11yAudit formatViolation testId registry contextSelector axeOptions
        engineError engineResult).1) :
    options ≠ JSVal.undef := by
  cases hp : _normalizeRunParams registry
      (if isUndef contextSelector then JSVal.str "#ember-testing-container"
        else contextSelector) axeOptions with
  | error e =>
    simp [a11yAudit, hp] at h
  | ok p =>
    obtain ⟨c, o⟩ := p
    simp [a11yAudit, hp] at h
    rw [h.2]
    exact normalized_options_ne_undef registry _ axeOptions c o hp

/-- Witness for the C9 theorem: an engine invocation recorded in the trace
carries defined options. -/
theorem engine_options_defined_witness :
    AuditEvent.engineRun (JSVal.str "#w") (JSVal.obj []) ∈
      (a11yAudit (fun _ _ => "") "tid4" JSVal.undef (JSVal.str "#w")
        (JSVal.obj []) JSVal.undef (AxeResults.mk [])).1 ∧
    JSVal.obj [] ≠ JSVal.undef := by
  have hm : AuditEvent.engineRun (JSVal.str "#w") (JSVal.obj []) ∈
      (a11yAudit (fun _ _ => "") "tid4" JSVal.undef (JSVal.str "#w")
        (JSVal.obj []) JSVal.undef (AxeResults.mk [])).1 := by
    show AuditEvent.engineRun (JSVal.str "#w") (JSVal.obj []) ∈
      [AuditEvent.mark "a11y_audit_start", AuditEvent.addClass "axe-running",
       AuditEvent.engineRun (JSVal.str "#w") (JSVal.obj []),
       AuditEvent.removeClass "axe-running",
       AuditEvent.measure "a11y_audit" "a11y_audit_start" "a11y_audit_end"]
    exact List.Mem.tail _ (List.Mem.tail _ (List.Mem.head _))
  exact ⟨hm, engine_options_defined _ _ _ _ _ _ _ _ _ hm⟩
